import Mathlib

/-!
Verification of the copy-insta karaoke-caption system.

The repository ships the React frontend (`frontend/src`), a README and a
deploy guide; the Python backend (FastAPI `main.py` with the speaker
detector, render engine and job pipeline) is not part of the sources.
Components present in the sources are embedded directly from the code;
the missing backend components are modelled from the specification, and
each such definition is marked `Modelled from the spec:` in its doc
comment.

Timestamps are modelled as rational numbers.
-/

namespace CopyInsta

/-- A transcription word with timing, as produced by the transcription
service and consumed throughout the frontend (`word`, `start`, `end`,
optional `speaker_id`).  The source field `end` is a Lean keyword and is
embedded as `ends`. -/
structure Word where
  word : String
  start : Rat
  ends : Rat
  speaker_id : Option Nat := none
deriving DecidableEq, Repr

instance : Inhabited Word := ⟨⟨"", 0, 0, none⟩⟩

/-! ## SRT export (frontend/src/components/TranscriptionResult.jsx, `getSRTFormat`) -/

/-- Character-level model of JavaScript's `String.prototype.endsWith`:
the suffix's characters close the string's characters. -/
def strEndsWith (s t : String) : Bool :=
  t.data.isSuffixOf s.data

/-- `word.word.endsWith('.') || word.word.endsWith('?') || word.word.endsWith('!')`
from `getSRTFormat`. -/
def wordEndsSentence (s : String) : Bool :=
  strEndsWith s "." || strEndsWith s "?" || strEndsWith s "!"

/-- The segment-closing test of `getSRTFormat`, applied to the segment
after the current word has been pushed:
`currentSegment.length >= 10 || word.word.endsWith('.') || ...`. -/
def srtCloseCond (seg : List Word) : Bool :=
  decide (seg.length ≥ 10) ||
    (match seg.getLast? with
     | some w => wordEndsSentence w.word
     | none => false)

/-- The `forEach` loop of `getSRTFormat`: push each word onto the current
segment; close the segment when it reaches 10 words or the word ends a
sentence; any remaining words form a final segment. -/
def srtSegmentsAux : List Word → List Word → List (List Word)
  | acc, [] => if acc.isEmpty then [] else [acc]
  | acc, w :: ws =>
    let acc2 := acc ++ [w]
    if srtCloseCond acc2 then
      acc2 :: srtSegmentsAux [] ws
    else
      srtSegmentsAux acc2 ws

def srtSegments (ws : List Word) : List (List Word) :=
  srtSegmentsAux [] ws

/-- JavaScript `%` for the non-negative operands used by `formatSRTTime`. -/
def jsMod (a b : Rat) : Rat := a - b * (⌊a / b⌋ : Int)

/-- `String.prototype.padStart(n, '0')`. -/
def padZeros (n : Nat) (s : String) : String :=
  String.mk (List.replicate (n - s.length) '0') ++ s

/-- `formatSRTTime` from TranscriptionResult.jsx: zero-padded
`HH:MM:SS,mmm`. -/
def formatSRTTime (seconds : Rat) : String :=
  let h := ⌊seconds / 3600⌋
  let m := ⌊(jsMod seconds 3600) / 60⌋
  let s := ⌊jsMod seconds 60⌋
  let ms := ⌊(jsMod seconds 1) * 1000⌋
  padZeros 2 (toString h) ++ ":" ++ padZeros 2 (toString m) ++ ":" ++
    padZeros 2 (toString s) ++ "," ++ padZeros 3 (toString ms)

/-- One numbered subtitle block of the SRT output. -/
def srtBlock (counter : Nat) (segment : List Word) : String :=
  let w0 := segment.headD default
  let wl := (segment.getLast?).getD default
  toString counter ++ "\n" ++
    formatSRTTime w0.start ++ " --> " ++ formatSRTTime wl.ends ++ "\n" ++
    String.intercalate " " (segment.map Word.word) ++ "\n\n"

/-- The second loop of `getSRTFormat`: emit each segment as a block,
incrementing the counter. -/
def srtRenderAux : Nat → List (List Word) → String
  | _, [] => ""
  | counter, seg :: rest => srtBlock counter seg ++ srtRenderAux (counter + 1) rest

/-- `getSRTFormat` from TranscriptionResult.jsx. -/
def getSRTFormat (ws : List Word) : String :=
  srtRenderAux 1 (srtSegments ws)

/-! ## Speakers and colors (TranscriptionResult.jsx, SpeakerEditor.jsx) -/

/-- `SPEAKER_COLORS` from TranscriptionResult.jsx. -/
def SPEAKER_COLORS : List String :=
  ["#FF6B6B", "#4ECDC4", "#FFE66D", "#95E1D3",
   "#DDA0DD", "#F7DC6F", "#87CEEB", "#FFA07A"]

/-- A Speaker record as delivered by the `/api/speakers` endpoint and
edited in the frontend: `speaker_id`, optional display `name`, optional
highlight `color`. -/
structure Speaker where
  speaker_id : Nat
  name : Option String := none
  color : Option String := none
deriving DecidableEq, Repr

/-- `getSpeakerColor` from TranscriptionResult.jsx:
`speaker?.color || SPEAKER_COLORS[speakerId % SPEAKER_COLORS.length]`.
JavaScript `||` treats the empty string as falsy, so a present but empty
color also falls back to the palette. -/
def getSpeakerColor (speakers : List Speaker) (speakerId : Nat) : String :=
  let fallback := (SPEAKER_COLORS.get? (speakerId % SPEAKER_COLORS.length)).getD ""
  match speakers.find? (fun s => s.speaker_id == speakerId) with
  | some s =>
    match s.color with
    | some c => if c = "" then fallback else c
    | none => fallback
  | none => fallback

/-- The `useState` initializer of SpeakerEditor.jsx:
`speakers.map((s) => ({ ...s, name: `Falante ${s.speaker_id + 1}` }))`. -/
def initSpeakerConfigs (speakers : List Speaker) : List Speaker :=
  speakers.map (fun s => { s with name := some ("Falante " ++ toString (s.speaker_id + 1)) })

/-! ## Pipeline states as seen by the frontend (ProcessingStatus.jsx) -/

/-- The keys of `STATUS_CONFIG` in ProcessingStatus.jsx, in declaration
order. -/
def statusConfigKeys : List String :=
  ["pending", "downloading", "extracting_audio", "transcribing",
   "detecting_speakers", "generating_video", "completed", "failed"]

/-- `getStepOrder` from ProcessingStatus.jsx.  The JavaScript body is
`order[status] || 0`: an unknown status maps to 0, and `failed` maps
to -1. -/
def getStepOrder (status : String) : Int :=
  if status = "pending" then 0
  else if status = "downloading" then 1
  else if status = "extracting_audio" then 2
  else if status = "transcribing" then 3
  else if status = "detecting_speakers" then 4
  else if status = "generating_video" then 5
  else if status = "completed" then 6
  else if status = "failed" then -1
  else 0

/-- The forward stage sequence displayed by the frontend: every
`STATUS_CONFIG` key except `failed`, in `getStepOrder` order. -/
def pipelineStates : List String :=
  ["pending", "downloading", "extracting_audio", "transcribing",
   "detecting_speakers", "generating_video", "completed"]

/-! ## Client status polling (App.jsx) -/

/-- The fields of a `/api/status/{job_id}` payload that the polling
effect of App.jsx inspects: `status`, `message`, and the presence of
`transcription` and `result_url`. -/
structure StatusData where
  status : String
  message : String := ""
  has_transcription : Bool := false
  has_result_url : Bool := false
deriving DecidableEq, Repr

/-- One tick of the polling effect of App.jsx (lines 26-49), returning
the next client step and whether the interval is cleared.  The branches
are checked in source order: `failed`; `completed` with a transcription
while the client is in step `processing`; `completed` with a result URL
while the client is in step `generating`. -/
def pollOnce (step : String) (d : StatusData) : String × Bool :=
  if d.status = "failed" then ("input", true)
  else if d.status = "completed" ∧ d.has_transcription ∧ step = "processing" then
    ("editing", true)
  else if d.status = "completed" ∧ d.has_result_url ∧ step = "generating" then
    ("complete", true)
  else (step, false)

/-- An event observed by the App client: a status poll result, or the
user triggering video generation (`handleGenerateVideo` /
`onVideoGenerated`, both of which `setStep('generating')` from the
editing screen). -/
inductive ClientEvent where
  | poll (d : StatusData)
  | generateVideo
deriving DecidableEq, Repr

def clientStep : String → ClientEvent → String
  | step, ClientEvent.poll d => (pollOnce step d).1
  | step, ClientEvent.generateVideo => if step = "editing" then "generating" else step

def runClient (step : String) (evs : List ClientEvent) : String :=
  evs.foldl clientStep step

/-- The polling effect runs only while `step !== 'complete'` (App.jsx
lines 23-24); this checks that guard at every poll event of a trace. -/
def pollsActive : String → List ClientEvent → Bool
  | _, [] => true
  | step, ClientEvent.poll d :: evs =>
    (step != "complete") && pollsActive (clientStep step (ClientEvent.poll d)) evs
  | step, ClientEvent.generateVideo :: evs =>
    pollsActive (clientStep step ClientEvent.generateVideo) evs

/-- The job statuses observed at the poll events of a trace, in order. -/
def statusTrace (evs : List ClientEvent) : List String :=
  evs.filterMap (fun e =>
    match e with
    | ClientEvent.poll d => some d.status
    | ClientEvent.generateVideo => none)

/-- `seesAfter tr a b` holds when some occurrence of `a` in `tr` is
followed, strictly later, by an occurrence of `b`. -/
def seesAfter : List String → String → String → Bool
  | [], _, _ => false
  | s :: rest, a, b =>
    (if s = a then rest.contains b else false) || seesAfter rest a b

/-- The status payload observed after transcription finishes:
`completed` with a transcription and no `result_url`. -/
def completedAfterTranscription : StatusData :=
  ⟨"completed", "", true, false⟩

/-- The status payload observed while the karaoke video is rendering. -/
def generatingVideoStatus : StatusData :=
  ⟨"generating_video", "", true, false⟩

/-- The status payload observed once the video is ready: `completed`
with a `result_url`. -/
def completedWithResult : StatusData :=
  ⟨"completed", "", true, true⟩

/-- The event trace of one successful end-to-end session, as scripted by
App.jsx: observe `completed` after transcription, request video
generation, observe `generating_video`, observe `completed` again with
the result URL. -/
def fullSessionTrace : List ClientEvent :=
  [ClientEvent.poll completedAfterTranscription,
   ClientEvent.generateVideo,
   ClientEvent.poll generatingVideoStatus,
   ClientEvent.poll completedWithResult]

/-! ## Speaker Detector (backend, not under the shipped sources) -/

/-- Modelled from the spec: the backend Speaker Detector (§4.2) is not
among the shipped sources.  Iterating words in order with the running
segment counter and the previous word's end time: a gap
`word.start - prevEnd` exceeding the pause threshold starts a new
segment; segments get speaker ids by round-robin alternation
(`segment % 2`) starting at 0. -/
def assignAux (thr : Rat) : Nat → Rat → List Word → List (Word × Nat)
  | _, _, [] => []
  | seg, prevEnd, w :: ws =>
    let seg2 := if w.start - prevEnd > thr then seg + 1 else seg
    (w, seg2 % 2) :: assignAux thr seg2 w.ends ws

/-- Modelled from the spec: `detect` word-assignment half.  The first
word is always speaker 0; later words follow the gap rule of
`assignAux`. -/
def detectAssign (thr : Rat) : List Word → List (Word × Nat)
  | [] => []
  | w :: ws => (w, 0) :: assignAux thr 0 w.ends ws

/-- Modelled from the spec: the derived Speaker list — one default
record per speaker id in use, empty for an empty transcript. -/
def detectSpeakerList (thr : Rat) (ws : List Word) : List Speaker :=
  if ws.isEmpty then []
  else
    (List.range ((((detectAssign thr ws).map Prod.snd).foldl max 0) + 1)).map
      (fun i => { speaker_id := i })

/-- Modelled from the spec: `detect(transcript) → (words with
speaker_id, list of Speaker)` (§4.2). -/
def detect (thr : Rat) (ws : List Word) : List (Word × Nat) × List Speaker :=
  (detectAssign thr ws, detectSpeakerList thr ws)

/-- The alternation step the detector must satisfy between consecutive
assigned words: the speaker id flips exactly at gaps exceeding the
threshold. -/
def altStep (thr : Rat) (a b : Word × Nat) : Prop :=
  b.2 = if b.1.start - a.1.ends > thr then (a.2 + 1) % 2 else a.2

instance (thr : Rat) (a b : Word × Nat) : Decidable (altStep thr a b) :=
  inferInstanceAs (Decidable (_ = _))

/-- No inter-word gap of the transcript exceeds the threshold. -/
def NoQualGap (thr : Rat) (ws : List Word) : Prop :=
  List.Chain' (fun a b => ¬ (b.start - a.ends > thr)) ws

instance (thr : Rat) (ws : List Word) : Decidable (NoQualGap thr ws) :=
  inferInstanceAs (Decidable (List.Chain' _ _))

/-- Scenario A of the spec: `[{"hi",0.0,0.3},{"there",0.5,0.9}]`. -/
def scenarioA : List Word :=
  [⟨"hi", 0, 3/10, none⟩, ⟨"there", 5/10, 9/10, none⟩]

/-- Scenario B of the spec: `[{"hi",0.0,0.3},{"bye",2.5,2.9}]`. -/
def scenarioB : List Word :=
  [⟨"hi", 0, 3/10, none⟩, ⟨"bye", 25/10, 29/10, none⟩]

/-! ## Render Engine (backend, not under the shipped sources) -/

/-- `t` lies in the half-open interval `[start, end)` of the word. -/
def containsT (w : Word) (t : Rat) : Prop :=
  w.start ≤ t ∧ t < w.ends

instance (w : Word) (t : Rat) : Decidable (containsT w t) :=
  inferInstanceAs (Decidable (_ ∧ _))

/-- The §3 Word invariant: positive-length intervals, sorted ascending
by start, no overlaps (each word ends no later than any later word
starts). -/
def WellFormed (ws : List Word) : Prop :=
  (∀ w ∈ ws, w.start < w.ends) ∧ ws.Pairwise (fun a b => a.ends ≤ b.start)

/-- Modelled from the spec: the StyleConfig supplied by the user
(§3). -/
structure StyleConfig where
  background_color : String
  default_highlight_color : String
  speaker_overrides : List (Nat × String) := []
  target_language : Option String := none
deriving DecidableEq, Repr

/-- Modelled from the spec: the non-highlight text color used for every
visible word whose interval does not contain the frame time. -/
def DEFAULT_TEXT_COLOR : String := "#FFFFFF"

/-- Modelled from the spec: the highlight color of a speaker — a
per-speaker StyleConfig override when present, else the speaker's own
color, else the palette default. -/
def styleSpeakerColor (style : StyleConfig) (speakers : List Speaker) (sid : Nat) : String :=
  match style.speaker_overrides.lookup sid with
  | some c => c
  | none => getSpeakerColor speakers sid

/-- One rendered word of an output frame: text, drawn color, and
whether it is the highlighted (currently spoken) word. -/
structure FrameWord where
  text : String
  color : String
  highlighted : Bool
deriving DecidableEq, Repr

instance : Inhabited FrameWord := ⟨⟨"", "", false⟩⟩

/-- Modelled from the spec: the overlay of one output frame at time `t`
(§4.3) — the word whose half-open interval `[start, end)` contains `t`
is drawn in its speaker's highlight color, all other words in the
default color. -/
def renderFrame (style : StyleConfig) (speakers : List Speaker)
    (assigned : List (Word × Nat)) (t : Rat) : List FrameWord :=
  assigned.map (fun p =>
    if containsT p.1 t then
      ⟨p.1.word, styleSpeakerColor style speakers p.2, true⟩
    else
      ⟨p.1.word, DEFAULT_TEXT_COLOR, false⟩)

/-- Modelled from the spec: fixed output frame rate (a configuration
constant, not derived from input). -/
def FPS : Nat := 30

/-- Modelled from the spec: an audio track, carrying its duration. -/
structure AudioTrack where
  duration : Rat
deriving DecidableEq, Repr

/-- Modelled from the spec: the finished video artifact — its duration
and the rendered frame overlays. -/
structure VideoArtifact where
  duration : Rat
  frames : List (List FrameWord)
deriving DecidableEq, Repr

/-- Number of frames covering a duration at the fixed frame rate. -/
def numFrames (d : Rat) : Nat := (⌈d * (FPS : Rat)⌉).toNat

/-- Modelled from the spec: `render(transcript, speakers, style_config,
audio_track) → video_artifact` (§4.3) — a pure total function; output
duration equals the audio track's duration; one overlay per frame at
times `k / FPS`. -/
def renderVideo (style : StyleConfig) (speakers : List Speaker)
    (assigned : List (Word × Nat)) (audio : AudioTrack) :
    Except String VideoArtifact :=
  Except.ok
    { duration := audio.duration
      frames :=
        (List.range (numFrames audio.duration)).map
          (fun k : Nat => renderFrame style speakers assigned ((k : Rat) / (FPS : Rat))) }

/-! ## Job pipeline operations (backend, not under the shipped sources) -/

/-- Modelled from the spec: the §4.1 job states. -/
inductive JobState where
  | pending
  | downloading
  | extracting_audio
  | transcribing
  | detecting_speakers
  | awaiting_style
  | generating_video
  | completed
  | failed
deriving DecidableEq, Repr

/-- Modelled from the spec: the §3 Job aggregate record. -/
structure Job where
  state : JobState
  progress_percent : Rat := 0
  status_message : String := ""
  transcript : Option (List Word) := none
  speakers : List Speaker := []
  style : Option StyleConfig := none
  output_artifact_path : Option String := none
  error : Option String := none
deriving DecidableEq, Repr

/-- Modelled from the spec: `submit_style(job_id, StyleConfig)` (§4.1) —
valid only in AWAITING_STYLE, where it stores the style and resumes the
pipeline into GENERATING_VIDEO; in any other state it fails with
StateError.  The result pairs the (possibly updated) job record with the
error, if any. -/
def submitStyle (j : Job) (cfg : StyleConfig) : Job × Option String :=
  if j.state = JobState.awaiting_style then
    ({ j with style := some cfg, state := JobState.generating_video }, none)
  else
    (j, some "StateError")

/-! ## Defensive transcript repair (backend, not under the shipped sources) -/

/-- Modelled from the spec: the §7 DataInvariantViolation repair —
each word's start is clamped to the previous word's end; ends are left
untouched. -/
def repairAux : Rat → List Word → List Word
  | _, [] => []
  | prevEnd, w :: ws =>
    let w2 := { w with start := max w.start prevEnd }
    w2 :: repairAux w2.ends ws

/-- Modelled from the spec: repair of a whole transcript; the first word
has no predecessor and is unchanged. -/
def repairWords : List Word → List Word
  | [] => []
  | w :: ws => w :: repairAux w.ends ws

/-- Consecutive words do not overlap: each ends no later than the next
starts. -/
def NoOverlap (ws : List Word) : Prop :=
  List.Chain' (fun a b => a.ends ≤ b.start) ws

instance (ws : List Word) : Decidable (NoOverlap ws) :=
  inferInstanceAs (Decidable (List.Chain' _ _))

/-- The word sequence is sorted ascending by start. -/
def SortedByStart (ws : List Word) : Prop :=
  List.Chain' (fun a b => a.start ≤ b.start) ws

instance (ws : List Word) : Decidable (SortedByStart ws) :=
  inferInstanceAs (Decidable (List.Chain' _ _))

/-- Word ends are nondecreasing along the sequence. -/
def EndsMono (ws : List Word) : Prop :=
  List.Chain' (fun a b => a.ends ≤ b.ends) ws

instance (ws : List Word) : Decidable (EndsMono ws) :=
  inferInstanceAs (Decidable (List.Chain' _ _))

/-! ## Auxiliary definitions used by the statements below -/

/-- Concatenation of a list of strings. -/
def concatAll (l : List String) : String :=
  l.foldr (· ++ ·) ""

/-- The loop invariant of `getSRTFormat`: the currently open segment was
never closed, so every nonempty prefix of it fails the closing test. -/
def SrtInv (acc : List Word) : Prop :=
  ∀ k, 0 < k → k ≤ acc.length → srtCloseCond (acc.take k) = false

/-- A transcript with overlapping, out-of-order words: the second word
lies strictly inside the first word's interval. -/
def overlapExample : List Word :=
  [⟨"a", 0, 10, none⟩, ⟨"b", 1, 2, none⟩, ⟨"c", 3, 4, none⟩]

/-- A concrete StyleConfig used in witness statements. -/
def exStyle : StyleConfig :=
  { background_color := "#000000", default_highlight_color := "#FFFFFF" }

/-- The detector output for scenario A, used in witness statements. -/
def scenarioAssigned : List (Word × Nat) :=
  detectAssign 1 scenarioA

/-- A three-word transcript whose second word ends a sentence, used in
witness statements for the SRT export. -/
def srtExampleWords : List Word :=
  [⟨"Hello", 0, 1/2, none⟩, ⟨"world.", 1/2, 1, none⟩, ⟨"Bye", 2, 3, none⟩]

/-! ## Theorems -/

/-- Claim C3, counterexample: the frontend's state machine has no
`awaiting_style` state at all — it is not among the `STATUS_CONFIG`
keys, and `getStepOrder` places `generating_video` immediately after
`detecting_speakers`, leaving no state between them; the unknown key
`awaiting_style` falls back to order 0, the same as `pending`. -/
theorem no_awaiting_style_state :
    statusConfigKeys.contains "awaiting_style" = false ∧
    getStepOrder "generating_video" = getStepOrder "detecting_speakers" + 1 ∧
    getStepOrder "awaiting_style" = getStepOrder "pending" := by
  decide

/-- Claim C3, amended: the job states tracked by the code are
`pending → downloading → extracting_audio → transcribing →
detecting_speakers → generating_video → completed`, with `failed`
outside the forward sequence (order -1); `getStepOrder` numbers the
forward sequence consecutively from 0 and there is no `awaiting_style`
state. -/
theorem pipeline_state_order :
    ((List.range 7).map (fun i => getStepOrder (pipelineStates.getD i ""))) =
      [0, 1, 2, 3, 4, 5, 6] ∧
    statusConfigKeys = pipelineStates ++ ["failed"] ∧
    getStepOrder "failed" = -1 ∧
    statusConfigKeys.contains "awaiting_style" = false := by
  decide

/-- Claim C4, counterexample: the client protocol scripted by App.jsx
runs, from step `processing`, through a trace that observes status
`completed` (with the transcription), then — after the user requests
video generation — observes the in-progress status `generating_video`,
and finally `completed` again; the polling guard is active at every
poll.  A job observed as COMPLETED therefore later reports
GENERATING_VIDEO in the very flow the code implements. -/
theorem completed_then_generating_trace :
    pollsActive "processing" fullSessionTrace = true ∧
    runClient "processing" fullSessionTrace = "complete" ∧
    seesAfter (statusTrace fullSessionTrace) "completed" "generating_video" = true := by
  decide

/-- Claim C4, amended: FAILED halts the client (any poll observing
`failed` clears the interval and resets the step), and once the client
step is `complete` no further poll runs; but COMPLETED is terminal only
per request phase — the protocol accepts, and the success path
requires, a trace in which `completed` is observed strictly before
`generating_video`. -/
theorem client_protocol_terminality :
    (∀ step d, d.status = "failed" → pollOnce step d = ("input", true)) ∧
    (∀ d evs, pollsActive "complete" (ClientEvent.poll d :: evs) = false) ∧
    (runClient "processing" fullSessionTrace = "complete" ∧
      seesAfter (statusTrace fullSessionTrace) "completed" "generating_video" = true) := by
  refine ⟨?_, ?_, by decide⟩
  · intro step d h
    simp [pollOnce, h]
  · intro d evs
    simp [pollsActive]

/-- Witness for `client_protocol_terminality` at a concrete failed
status payload. -/
theorem client_protocol_terminality_witness :
    pollOnce "processing" ⟨"failed", "", false, false⟩ = ("input", true) :=
  client_protocol_terminality.1 "processing" ⟨"failed", "", false, false⟩ rfl

/-- Claim C7: `submit_style` succeeds exactly in AWAITING_STYLE, where
it stores the StyleConfig and resumes into GENERATING_VIDEO; in every
other state it fails with StateError and returns the job record
entirely unchanged. -/
theorem submitStyle_state_error (j : Job) (cfg : StyleConfig) :
    (j.state ≠ JobState.awaiting_style → submitStyle j cfg = (j, some "StateError")) ∧
    (j.state = JobState.awaiting_style →
      (submitStyle j cfg).2 = none ∧
      (submitStyle j cfg).1.state = JobState.generating_video ∧
      (submitStyle j cfg).1.style = some cfg ∧
      (submitStyle j cfg).1.transcript = j.transcript ∧
      (submitStyle j cfg).1.speakers = j.speakers ∧
      (submitStyle j cfg).1.progress_percent = j.progress_percent ∧
      (submitStyle j cfg).1.output_artifact_path = j.output_artifact_path ∧
      (submitStyle j cfg).1.error = j.error) := by
  constructor
  · intro h
    simp [submitStyle, h]
  · intro h
    simp [submitStyle, h]

/-- Witness for `submitStyle_state_error`: a job in TRANSCRIBING is
rejected with StateError and left unchanged. -/
theorem submitStyle_state_error_witness :
    submitStyle { state := JobState.transcribing } exStyle =
      ({ state := JobState.transcribing }, some "StateError") :=
  (submitStyle_state_error { state := JobState.transcribing } exStyle).1 (by decide)

/-- Claim C5: `detect` and `render` are deterministic — on identical
inputs two runs produce identical assignments, speaker lists and video
artifacts (both are pure functions of their arguments). -/
theorem detect_render_deterministic (thr thr2 : Rat) (ws ws2 : List Word)
    (style style2 : StyleConfig) (speakers speakers2 : List Speaker)
    (assigned assigned2 : List (Word × Nat)) (audio audio2 : AudioTrack)
    (hthr : thr = thr2) (hws : ws = ws2) (hst : style = style2)
    (hsp : speakers = speakers2) (hasg : assigned = assigned2) (hau : audio = audio2) :
    detect thr ws = detect thr2 ws2 ∧
    renderVideo style speakers assigned audio =
      renderVideo style2 speakers2 assigned2 audio2 := by
  subst hthr
  subst hws
  subst hst
  subst hsp
  subst hasg
  subst hau
  exact ⟨rfl, rfl⟩

/-- Witness for `detect_render_deterministic` at concrete inputs. -/
theorem detect_render_deterministic_witness :
    detect 1 scenarioA = detect 1 scenarioA ∧
    renderVideo exStyle [] scenarioAssigned ⟨2⟩ =
      renderVideo exStyle [] scenarioAssigned ⟨2⟩ :=
  detect_render_deterministic 1 1 scenarioA scenarioA exStyle exStyle [] []
    scenarioAssigned scenarioAssigned ⟨2⟩ ⟨2⟩ rfl rfl rfl rfl rfl rfl

/-- Claim C6: rendering an empty transcript always succeeds, the output
duration equals the audio track's duration, there is one overlay per
frame of that duration, and no word is highlighted in any frame nor at
any time. -/
theorem render_empty_transcript (style : StyleConfig) (speakers : List Speaker)
    (audio : AudioTrack) :
    renderVideo style speakers [] audio =
      Except.ok ⟨audio.duration, List.replicate (numFrames audio.duration) []⟩ ∧
    (∀ t : Rat, renderFrame style speakers [] t = []) := by
  refine ⟨?_, fun t => rfl⟩
  unfold renderVideo
  have h1 : (List.range (numFrames audio.duration)).map
      (fun k : Nat => renderFrame style speakers [] ((k : Rat) / (FPS : Rat))) =
      List.replicate (numFrames audio.duration) [] := by
    rw [show (fun k : Nat => renderFrame style speakers [] ((k : Rat) / (FPS : Rat))) =
        (fun _ : Nat => ([] : List FrameWord)) from funext fun k => rfl]
    rw [List.map_const', List.length_range]
  rw [h1]

/-- Claim C8, counterexample: the default display name produced by the
code for speaker 0 is `Falante 1`, not `Speaker 1`. -/
theorem default_name_not_speaker_n :
    (initSpeakerConfigs [{ speaker_id := 0 }]).map Speaker.name = [some "Falante 1"] ∧
    (some "Falante 1" ≠ some "Speaker 1") := by
  decide

/-- Claim C8, amended: every fresh speaker config is given the default
display name `Falante N` with `N = speaker_id + 1`, and whenever a
speaker carries no usable color (absent record, absent color, or the
falsy empty string), its highlight color is the fixed palette entry at
`speaker_id mod palette size`. -/
theorem default_speaker_name_and_color (speakers : List Speaker) (id : Nat) :
    (∀ s ∈ initSpeakerConfigs speakers,
      s.name = some ("Falante " ++ toString (s.speaker_id + 1))) ∧
    ((∀ s ∈ speakers, s.speaker_id = id → s.color = none ∨ s.color = some "") →
      getSpeakerColor speakers id =
        (SPEAKER_COLORS.get? (id % SPEAKER_COLORS.length)).getD "") := by
  constructor
  · intro s hs
    simp only [initSpeakerConfigs, List.mem_map] at hs
    obtain ⟨t, _, rfl⟩ := hs
    rfl
  · intro h
    unfold getSpeakerColor
    cases hf : speakers.find? (fun s => s.speaker_id == id) with
    | none => rfl
    | some s =>
      have hmem := List.mem_of_find?_eq_some hf
      have hpred := List.find?_some hf
      have hid : s.speaker_id = id := by
        simpa using hpred
      rcases h s hmem hid with hc | hc <;> simp [hc]

/-- Witness for `default_speaker_name_and_color`: a speaker whose color
is the empty string falls back to the palette entry at index
`1 mod 8`. -/
theorem default_speaker_name_and_color_witness :
    getSpeakerColor [⟨1, none, some ""⟩] 1 =
      (SPEAKER_COLORS.get? (1 % SPEAKER_COLORS.length)).getD "" :=
  (default_speaker_name_and_color [⟨1, none, some ""⟩] 1).2 (by decide)

/-- Helper for claim C9: the repaired tail forms a no-overlap chain with
the word before it. -/
theorem repairAux_chain (ws : List Word) (pw : Word) :
    List.Chain (fun a b => a.ends ≤ b.start) pw (repairAux pw.ends ws) := by
  induction ws generalizing pw with
  | nil => exact List.Chain.nil
  | cons w ws ih =>
    simp only [repairAux]
    exact List.Chain.cons (le_max_right _ _) (ih { w with start := max w.start pw.ends })

/-- Helper for claim C9: a no-overlap chain whose words all satisfy
`start ≤ ends` is sorted ascending by start. -/
theorem chain_ends_start (l : List Word)
    (h : List.Chain' (fun a b => a.ends ≤ b.start) l)
    (hw : ∀ w ∈ l, w.start ≤ w.ends) :
    List.Chain' (fun a b => a.start ≤ b.start) l := by
  induction l with
  | nil => trivial
  | cons a l ih =>
    cases l with
    | nil => exact List.chain'_singleton a
    | cons b t =>
      rw [List.chain'_cons] at h ⊢
      refine ⟨le_trans (hw a (by simp)) h.1, ih h.2 ?_⟩
      intro w hwm
      exact hw w (List.mem_cons_of_mem a hwm)

/-- Claim C9, counterexample: repairing the overlapping transcript
`[(a,0,10),(b,1,2),(c,3,4)]` clamps `b`'s start to 10 while leaving its
end at 2, so the repaired starts `0, 10, 3` are not sorted ascending —
though no consecutive pair overlaps. -/
theorem repair_not_sorted_example :
    ¬ SortedByStart (repairWords overlapExample) ∧
    NoOverlap (repairWords overlapExample) := by
  norm_num [overlapExample, repairWords, repairAux, SortedByStart, NoOverlap,
    List.chain'_cons, List.chain'_singleton]

/-- Claim C9, amended: repair never fails and always yields a transcript
with no overlaps (each word starts no earlier than the previous word
ends); it is additionally sorted ascending by start whenever every
repaired word still satisfies `start ≤ end` — clamping only moves
starts, so a word whose interval lies inside an earlier, longer word can
end up with `start > end` and break sortedness. -/
theorem repair_guarantees (ws : List Word) :
    NoOverlap (repairWords ws) ∧
    ((∀ w ∈ repairWords ws, w.start ≤ w.ends) → SortedByStart (repairWords ws)) := by
  have hno : NoOverlap (repairWords ws) := by
    cases ws with
    | nil => trivial
    | cons w ws => exact repairAux_chain ws w
  exact ⟨hno, fun hw => chain_ends_start _ hno hw⟩

/-- Witness for `repair_guarantees`: scenario B's transcript is already
well-spaced, and its repair is no-overlap and sorted. -/
theorem repair_guarantees_witness :
    NoOverlap (repairWords scenarioB) ∧ SortedByStart (repairWords scenarioB) :=
  ⟨(repair_guarantees scenarioB).1,
    (repair_guarantees scenarioB).2 (by
      norm_num [scenarioB, repairWords, repairAux])⟩

/-- Helper for claim C1: the assignment preserves the word sequence. -/
theorem assignAux_words (thr : Rat) (ws : List Word) :
    ∀ seg pe, (assignAux thr seg pe ws).map Prod.fst = ws := by
  induction ws with
  | nil => intro seg pe; rfl
  | cons w ws ih =>
    intro seg pe
    simp only [assignAux, List.map_cons]
    rw [ih]

/-- Helper for claim C1: `detectAssign` preserves the word sequence. -/
theorem detectAssign_words (thr : Rat) (ws : List Word) :
    (detectAssign thr ws).map Prod.fst = ws := by
  cases ws with
  | nil => rfl
  | cons w ws =>
    simp only [detectAssign, List.map_cons]
    rw [assignAux_words]

/-- Helper for claim C1: the tail assignment is an `altStep` chain from
the previous word carrying the current segment counter. -/
theorem assignAux_chain (thr : Rat) (ws : List Word) :
    ∀ (pw : Word) (seg : Nat),
      List.Chain (altStep thr) (pw, seg % 2) (assignAux thr seg pw.ends ws) := by
  induction ws with
  | nil => intro pw seg; exact List.Chain.nil
  | cons w ws ih =>
    intro pw seg
    simp only [assignAux]
    by_cases hgap : w.start - pw.ends > thr
    · simp only [if_pos hgap]
      refine List.Chain.cons ?_ (ih w (seg + 1))
      show (seg + 1) % 2 = if w.start - pw.ends > thr then (seg % 2 + 1) % 2 else seg % 2
      rw [if_pos hgap]
      omega
    · simp only [if_neg hgap]
      refine List.Chain.cons ?_ (ih w seg)
      show seg % 2 = if w.start - pw.ends > thr then (seg % 2 + 1) % 2 else seg % 2
      rw [if_neg hgap]

/-- Helper for claim C1: the whole assignment is an `altStep` chain —
speaker ids flip exactly at gaps exceeding the threshold. -/
theorem detectAssign_chain (thr : Rat) (ws : List Word) :
    List.Chain' (altStep thr) (detectAssign thr ws) := by
  cases ws with
  | nil => trivial
  | cons w ws => exact assignAux_chain thr ws w 0

/-- Helper for claim C1: with no qualifying gap after the previous word,
every assigned id equals the carried segment id. -/
theorem assignAux_const (thr : Rat) (ws : List Word) :
    ∀ (pw : Word) (seg : Nat),
      List.Chain (fun a b => ¬ (b.start - a.ends > thr)) pw ws →
      ∀ p ∈ assignAux thr seg pw.ends ws, p.2 = seg % 2 := by
  induction ws with
  | nil =>
    intro pw seg _ p hp
    exact absurd hp (List.not_mem_nil p)
  | cons w ws ih =>
    intro pw seg hch p hp
    cases hch with
    | cons h1 h2 =>
      simp only [assignAux, if_neg h1] at hp
      rcases List.mem_cons.mp hp with rfl | hp2
      · rfl
      · exact ih w seg h2 p hp2

/-- Helper for claim C1: with no qualifying gap anywhere, every word is
assigned speaker 0. -/
theorem detectAssign_const (thr : Rat) (ws : List Word) (h : NoQualGap thr ws) :
    ∀ p ∈ detectAssign thr ws, p.2 = 0 := by
  cases ws with
  | nil =>
    intro p hp
    exact absurd hp (List.not_mem_nil p)
  | cons w ws =>
    intro p hp
    rcases List.mem_cons.mp hp with rfl | hp2
    · rfl
    · exact assignAux_const thr ws w 0 h p hp2

/-- Helper for claim C1: folding `max` over a list of zeros leaves the
accumulator unchanged. -/
theorem foldl_max_zero : ∀ (l : List Nat) (a : Nat), (∀ x ∈ l, x = 0) → l.foldl max a = a := by
  intro l
  induction l with
  | nil => intro a _; rfl
  | cons x l ih =>
    intro a h
    have hx : x = 0 := h x (List.mem_cons_self x l)
    simp only [List.foldl_cons, hx, Nat.max_zero]
    exact ih a (fun y hy => h y (List.mem_cons_of_mem x hy))

/-- Helper for claim C1: when every assigned id is 0 and the transcript
is nonempty, the derived speaker list is the single default speaker 0. -/
theorem detectSpeakerList_single (thr : Rat) (ws : List Word) (hne : ws ≠ [])
    (h : ∀ p ∈ detectAssign thr ws, p.2 = 0) :
    detectSpeakerList thr ws = [{ speaker_id := 0 }] := by
  unfold detectSpeakerList
  rw [if_neg (by simp [List.isEmpty_iff, hne])]
  have h0 : ((detectAssign thr ws).map Prod.snd).foldl max 0 = 0 := by
    refine foldl_max_zero _ 0 ?_
    intro x hx
    rcases List.mem_map.mp hx with ⟨p, hp, rfl⟩
    exact h p hp
  rw [h0]
  rfl

/-- Claim C1: the detector assigns an id to every word in order (the
word sequence is preserved); a zero-word transcript yields empty
assignments and an empty speaker list; the first word is always
speaker 0; consecutive words satisfy the alternation step — the id flips
modulo 2 exactly at inter-word gaps exceeding the threshold, so runs
between qualifying gaps form segments numbered round-robin from 0; with
no qualifying gap every word gets speaker 0 and exactly one speaker is
returned; scenario A (`hi/there`, threshold 1) gives both words
speaker 0, and scenario B (`hi/bye`) gives speakers 0 and 1. -/
theorem detect_pause_segmentation (thr : Rat) (ws : List Word) :
    ((detectAssign thr ws).map Prod.fst = ws) ∧
    (detect thr [] = ([], [])) ∧
    (∀ w rest, ws = w :: rest → (detectAssign thr ws).head? = some (w, 0)) ∧
    List.Chain' (altStep thr) (detectAssign thr ws) ∧
    (NoQualGap thr ws →
      (∀ p ∈ detectAssign thr ws, p.2 = 0) ∧
      (ws ≠ [] → detectSpeakerList thr ws = [{ speaker_id := 0 }])) ∧
    ((detect 1 scenarioA).1.map Prod.snd = [0, 0] ∧
      (detect 1 scenarioA).2 = [{ speaker_id := 0 }]) ∧
    ((detect 1 scenarioB).1.map Prod.snd = [0, 1] ∧
      (detect 1 scenarioB).2 = [{ speaker_id := 0 }, { speaker_id := 1 }]) := by
  refine ⟨detectAssign_words thr ws, rfl, ?_, detectAssign_chain thr ws, ?_, ?_, ?_⟩
  · intro w rest h
    subst h
    rfl
  · intro h
    exact ⟨detectAssign_const thr ws h,
      fun hne => detectSpeakerList_single thr ws hne (detectAssign_const thr ws h)⟩
  · constructor
    · norm_num [detect, detectAssign, assignAux, scenarioA]
    · norm_num [detect, detectSpeakerList, detectAssign, assignAux, scenarioA,
        List.range_succ]
  · constructor
    · norm_num [detect, detectAssign, assignAux, scenarioB]
    · norm_num [detect, detectSpeakerList, detectAssign, assignAux, scenarioB,
        List.range_succ]

/-- Witness for `detect_pause_segmentation`: scenario A has no
qualifying gap, so all of its words get speaker 0 and exactly one
speaker is derived. -/
theorem detect_pause_segmentation_witness :
    (∀ p ∈ detectAssign 1 scenarioA, p.2 = 0) ∧
    detectSpeakerList 1 scenarioA = [{ speaker_id := 0 }] := by
  have hng : NoQualGap 1 scenarioA := by
    norm_num [NoQualGap, scenarioA, List.chain'_cons, List.chain'_singleton]
  have h := (detect_pause_segmentation 1 scenarioA).2.2.2.2.1 hng
  exact ⟨h.1, h.2 (by simp [scenarioA])⟩

/-- Helper for claim C2: `getD` with an in-range index commutes with
`map`. -/
theorem list_getD_map {α β : Type} (l : List α) (f : α → β) (j : Nat)
    (hj : j < l.length) (d : β) (d0 : α) :
    (l.map f).getD j d = f (l.getD j d0) := by
  induction l generalizing j with
  | nil => exact absurd hj (Nat.not_lt_zero j)
  | cons a l ih =>
    cases j with
    | zero => rfl
    | succ j => exact ih j (Nat.lt_of_succ_lt_succ hj)

/-- Helper for claim C2: `getD` with an in-range index is `get`. -/
theorem list_getD_eq_get {α : Type} [Inhabited α] (l : List α) (k : Nat)
    (hk : k < l.length) :
    l.getD k default = l.get ⟨k, hk⟩ := by
  induction l generalizing k with
  | nil => exact absurd hk (Nat.not_lt_zero k)
  | cons a l ih =>
    cases k with
    | zero => rfl
    | succ k => exact ih k (Nat.lt_of_succ_lt_succ hk)

/-- Helper for claim C2: in a well-formed transcript, at most one word's
half-open interval contains any given time. -/
theorem contains_unique (ws : List Word) (t : Rat) (hwf : WellFormed ws)
    (i j : Nat) (hi : i < ws.length) (hj : j < ws.length)
    (hci : containsT (ws.getD i default) t)
    (hcj : containsT (ws.getD j default) t) :
    i = j := by
  rcases Nat.lt_trichotomy i j with hlt | heq | hgt
  · exfalso
    have hp := List.pairwise_iff_get.mp hwf.2 ⟨i, hi⟩ ⟨j, hj⟩ (Fin.mk_lt_mk.mpr hlt)
    rw [list_getD_eq_get ws i hi] at hci
    rw [list_getD_eq_get ws j hj] at hcj
    exact absurd hci.2 (not_lt.mpr (hp.trans hcj.1))
  · exact heq
  · exfalso
    have hp := List.pairwise_iff_get.mp hwf.2 ⟨j, hj⟩ ⟨i, hi⟩ (Fin.mk_lt_mk.mpr hgt)
    rw [list_getD_eq_get ws i hi] at hci
    rw [list_getD_eq_get ws j hj] at hcj
    exact absurd hcj.2 (not_lt.mpr (hp.trans hci.1))

/-- Claim C2: when no word's half-open interval contains the frame time,
no word of the rendered frame is highlighted; and when the word at
position `i` of a well-formed transcript contains the frame time, the
rendered frame highlights exactly position `i`, drawing it in its
speaker's highlight color and every other position in the default
color. -/
theorem renderFrame_highlights_active_word (style : StyleConfig)
    (speakers : List Speaker) (assigned : List (Word × Nat)) (t : Rat)
    (hwf : WellFormed (assigned.map Prod.fst)) :
    ((∀ p ∈ assigned, ¬ containsT p.1 t) →
      ∀ e ∈ renderFrame style speakers assigned t, e.highlighted = false) ∧
    (∀ i, i < assigned.length → containsT (assigned.getD i default).1 t →
      ∀ j, j < assigned.length →
        ((renderFrame style speakers assigned t).getD j default).highlighted =
          decide (j = i) ∧
        ((renderFrame style speakers assigned t).getD j default).color =
          (if j = i then styleSpeakerColor style speakers ((assigned.getD j default).2)
           else DEFAULT_TEXT_COLOR)) := by
  constructor
  · intro h e he
    simp only [renderFrame, List.mem_map] at he
    obtain ⟨p, hp, rfl⟩ := he
    rw [if_neg (h p hp)]
  · intro i hi hci j hj
    have hlen : (assigned.map Prod.fst).length = assigned.length := List.length_map assigned _
    have hjf : ((assigned.map Prod.fst).getD j default) = (assigned.getD j default).1 :=
      list_getD_map assigned Prod.fst j hj default default
    have hif : ((assigned.map Prod.fst).getD i default) = (assigned.getD i default).1 :=
      list_getD_map assigned Prod.fst i hi default default
    have hfr : (renderFrame style speakers assigned t).getD j default =
        (if containsT (assigned.getD j default).1 t then
          (⟨(assigned.getD j default).1.word,
            styleSpeakerColor style speakers (assigned.getD j default).2, true⟩ : FrameWord)
         else
          ⟨(assigned.getD j default).1.word, DEFAULT_TEXT_COLOR, false⟩) := by
      simp only [renderFrame]
      exact list_getD_map assigned _ j hj default default
    by_cases hij : j = i
    · subst hij
      rw [hfr, if_pos hci]
      constructor
      · simp
      · rw [if_pos rfl]
    · have hnc : ¬ containsT (assigned.getD j default).1 t := by
        intro hc
        apply hij
        apply contains_unique (assigned.map Prod.fst) t hwf j i
          (by rw [hlen]; exact hj) (by rw [hlen]; exact hi)
        · rw [hjf]; exact hc
        · rw [hif]; exact hci
      rw [hfr, if_neg hnc]
      constructor
      · simp [hij]
      · rw [if_neg hij]

/-- Witness for `renderFrame_highlights_active_word`: at time 0 the
first word of scenario A is active, and position 1 of the rendered frame
is not highlighted and is drawn in the default color. -/
theorem renderFrame_highlights_active_word_witness :
    ((renderFrame exStyle [] scenarioAssigned 0).getD 1 default).highlighted =
      decide ((1 : Nat) = 0) ∧
    ((renderFrame exStyle [] scenarioAssigned 0).getD 1 default).color =
      (if (1 : Nat) = 0 then
        styleSpeakerColor exStyle [] ((scenarioAssigned.getD 1 default).2)
       else DEFAULT_TEXT_COLOR) := by
  refine (renderFrame_highlights_active_word exStyle [] scenarioAssigned 0 ?_).2
    0 ?_ ?_ 1 ?_
  · norm_num [WellFormed, scenarioAssigned, detectAssign, assignAux, scenarioA,
      List.pairwise_cons]
  · norm_num [scenarioAssigned, detectAssign, assignAux, scenarioA]
  · norm_num [scenarioAssigned, detectAssign, assignAux, scenarioA, containsT]
  · norm_num [scenarioAssigned, detectAssign, assignAux, scenarioA]

/-- Helper for claim C10: the segments join back to the word list,
starting from any open segment. -/
theorem srtSegmentsAux_join (ws : List Word) :
    ∀ acc, (srtSegmentsAux acc ws).flatten = acc ++ ws := by
  induction ws with
  | nil =>
    intro acc
    cases acc with
    | nil => rfl
    | cons a l => simp [srtSegmentsAux]
  | cons w ws ih =>
    intro acc
    simp only [srtSegmentsAux]
    by_cases h : srtCloseCond (acc ++ [w]) = true
    · rw [if_pos h]
      show (acc ++ [w]) ++ (srtSegmentsAux [] ws).flatten = acc ++ w :: ws
      rw [ih []]
      simp
    · rw [if_neg h, ih (acc ++ [w])]
      simp

/-- Helper for claim C10: the empty open segment satisfies the loop
invariant. -/
theorem srtInv_nil : SrtInv [] := by
  intro k hk hkle
  simp only [List.length_nil] at hkle
  omega

/-- Helper for claim C10: an open segment that was never closed holds at
most 9 words. -/
theorem srtInv_length_le (acc : List Word) (h : SrtInv acc) : acc.length ≤ 9 := by
  by_contra hlen
  push_neg at hlen
  have h10 := h 10 (by omega) (by omega)
  unfold srtCloseCond at h10
  rw [Bool.or_eq_false_iff] at h10
  have hd := h10.1
  rw [decide_eq_false_iff_not] at hd
  apply hd
  rw [List.length_take]
  omega

/-- Helper for claim C10: pushing a word that does not close the segment
preserves the loop invariant. -/
theorem srtInv_extend (acc : List Word) (w : Word) (hinv : SrtInv acc)
    (hcl : srtCloseCond (acc ++ [w]) = false) : SrtInv (acc ++ [w]) := by
  intro k hk hkle
  rw [List.length_append, List.length_singleton] at hkle
  by_cases hke : k = acc.length + 1
  · have : k = (acc ++ [w]).length := by
      rw [List.length_append, List.length_singleton, hke]
    rw [this, List.take_length]
    exact hcl
  · have hk2 : k ≤ acc.length := by omega
    rw [List.take_append_of_le_length hk2]
    exact hinv k hk hk2

/-- Helper for claim C10, the main loop invariant argument: every
produced segment is nonempty, holds at most 10 words, and none of its
proper nonempty prefixes satisfies the closing test; every segment
except possibly the last satisfies the closing test. -/
theorem srtSegmentsAux_spec (ws : List Word) :
    ∀ acc, SrtInv acc →
      (∀ seg ∈ srtSegmentsAux acc ws, seg ≠ [] ∧ seg.length ≤ 10 ∧
        ∀ k, 0 < k → k < seg.length → srtCloseCond (seg.take k) = false) ∧
      (∀ i, i + 1 < (srtSegmentsAux acc ws).length →
        srtCloseCond ((srtSegmentsAux acc ws).getD i []) = true) := by
  induction ws with
  | nil =>
    intro acc hinv
    cases acc with
    | nil =>
      constructor
      · intro seg hseg
        simp [srtSegmentsAux] at hseg
      · intro i hi
        simp [srtSegmentsAux] at hi
    | cons a l =>
      constructor
      · intro seg hseg
        simp only [srtSegmentsAux, List.isEmpty_cons, if_false] at hseg
        rcases List.mem_singleton.mp hseg with rfl
        refine ⟨by simp, ?_, ?_⟩
        · have := srtInv_length_le (a :: l) hinv
          omega
        · intro k hk hklt
          exact hinv k hk (Nat.le_of_lt hklt)
      · intro i hi
        simp [srtSegmentsAux] at hi
  | cons w ws ih =>
    intro acc hinv
    by_cases hcl : srtCloseCond (acc ++ [w]) = true
    · have hseg : srtSegmentsAux acc (w :: ws) = (acc ++ [w]) :: srtSegmentsAux [] ws := by
        simp only [srtSegmentsAux, hcl, if_true]
      rw [hseg]
      obtain ⟨ihm, ihc⟩ := ih [] srtInv_nil
      constructor
      · intro seg hsegm
        rcases List.mem_cons.mp hsegm with rfl | hm
        · refine ⟨by simp, ?_, ?_⟩
          · have := srtInv_length_le acc hinv
            rw [List.length_append, List.length_singleton]
            omega
          · intro k hk hklt
            rw [List.length_append, List.length_singleton] at hklt
            have hk2 : k ≤ acc.length := by omega
            rw [List.take_append_of_le_length hk2]
            exact hinv k hk hk2
        · exact ihm seg hm
      · intro i hi
        cases i with
        | zero => exact hcl
        | succ i =>
          apply ihc
          simp only [List.length_cons] at hi
          omega
    · have hcl2 : srtCloseCond (acc ++ [w]) = false := by
        simp at hcl
        exact hcl
      have hseg : srtSegmentsAux acc (w :: ws) = srtSegmentsAux (acc ++ [w]) ws := by
        simp [srtSegmentsAux, hcl2]
      rw [hseg]
      exact ih (acc ++ [w]) (srtInv_extend acc w hinv hcl2)

/-- Helper for claim C10: the emission loop numbers the blocks
consecutively from its starting counter. -/
theorem srtRenderAux_enum (segs : List (List Word)) :
    ∀ c, srtRenderAux c segs =
      concatAll ((segs.enumFrom c).map (fun p => srtBlock p.1 p.2)) := by
  induction segs with
  | nil => intro c; rfl
  | cons s rest ih =>
    intro c
    show srtBlock c s ++ srtRenderAux (c + 1) rest = _
    rw [ih (c + 1)]
    rfl

/-- Claim C10: the SRT export partitions the words in order into
consecutive segments (their join is the original list); a segment is
closed exactly when it reaches 10 words or its latest word ends with a
sentence terminator — every emitted segment is nonempty with at most 10
words, no proper nonempty prefix of a segment satisfies the closing
test, and every segment except possibly the final leftover satisfies it;
the output is the concatenation of blocks numbered consecutively from 1,
each block built by `srtBlock` from the segment's first word's start and
last word's end via `formatSRTTime` (zero-padded `HH:MM:SS,mmm`, as the
two concrete evaluations show). -/
theorem srt_export_segmentation (ws : List Word) :
    ((srtSegments ws).flatten = ws) ∧
    (∀ seg ∈ srtSegments ws, seg ≠ [] ∧ seg.length ≤ 10 ∧
      ∀ k, 0 < k → k < seg.length → srtCloseCond (seg.take k) = false) ∧
    (∀ i, i + 1 < (srtSegments ws).length →
      srtCloseCond ((srtSegments ws).getD i []) = true) ∧
    (getSRTFormat ws =
      concatAll (((srtSegments ws).enumFrom 1).map (fun p => srtBlock p.1 p.2))) ∧
    (formatSRTTime 0 = "00:00:00,000" ∧
      formatSRTTime (3661 + 1/2 : Rat) = "01:01:01,500") := by
  obtain ⟨h1, h2⟩ := srtSegmentsAux_spec ws [] srtInv_nil
  refine ⟨srtSegmentsAux_join ws [], h1, h2, srtRenderAux_enum (srtSegments ws) 1, ?_, ?_⟩
  · have e1 : (⌊(0 : Rat) / 3600⌋ : Int) = 0 := by norm_num
    have e2 : (⌊(jsMod (0 : Rat) 3600) / 60⌋ : Int) = 0 := by norm_num [jsMod]
    have e3 : (⌊jsMod (0 : Rat) 60⌋ : Int) = 0 := by norm_num [jsMod]
    have e4 : (⌊(jsMod (0 : Rat) 1) * 1000⌋ : Int) = 0 := by norm_num [jsMod]
    rw [formatSRTTime, e1, e2, e3, e4]
    rfl
  · have e1 : (⌊(3661 + 1/2 : Rat) / 3600⌋ : Int) = 1 := by norm_num
    have e2 : (⌊(jsMod (3661 + 1/2 : Rat) 3600) / 60⌋ : Int) = 1 := by norm_num [jsMod]
    have e3 : (⌊jsMod (3661 + 1/2 : Rat) 60⌋ : Int) = 1 := by norm_num [jsMod]
    have e4 : (⌊(jsMod (3661 + 1/2 : Rat) 1) * 1000⌋ : Int) = 500 := by norm_num [jsMod]
    rw [formatSRTTime, e1, e2, e3, e4]
    rfl

/-- Witness for `srt_export_segmentation`: on the three-word example the
first segment (closed by the sentence-ending word) satisfies the closing
test. -/
theorem srt_export_segmentation_witness :
    srtCloseCond ((srtSegments srtExampleWords).getD 0 []) = true :=
  (srt_export_segmentation srtExampleWords).2.2.1 0 (by decide)

end CopyInsta
